import Mathlib

/-!
Verification of the WAMS multi-touch gesture-recognition engine.

This file gives a shallow embedding of the parts of the code that the
verified properties are about:

* `src/src/gestures/gestures/Pinch.js` — the Pinch gesture recognizer
  (constructor, `refresh`, `start`, `move`, `end`, `cancel`);
* `src/unnamed/part_000` (the client `Interactor`) — the
  `refineRotateMove` override restricting Rotate to exactly two active
  contacts, and the `rotate` handler converting degrees to radians;
* `src/src/shared/util.js` — `removeById`.

JavaScript numbers are idealised as exact rationals (input coordinates)
and reals (derived distances); `Math.sqrt` becomes `Real.sqrt`.  Division
of finite JS numbers is modelled by `jsDiv`, which reproduces IEEE-754
behaviour on a zero divisor (`0/0 = NaN`, `d/0 = ±Infinity`) instead of
Lean's `x / 0 = 0` convention.  Methods that may reassign fields of
`this` or of `state` are embedded by explicit state passing: each hook
takes the gesture's fields and the state and returns the post-call
gesture fields and post-call state, so frame properties are statable.

`Point2D`, `Input` and `State` belong to this repository but their
source files are not among the ones provided; they are modelled from the
spec, as marked on each definition.
-/

namespace Wams

/-- Modelled from the spec: Point2D (source file Point2D.js not provided).
A plain 2D point; coordinates idealised as rationals. -/
structure Point2D where
  x : ℚ
  y : ℚ
  deriving DecidableEq

/-- Modelled from the spec: `Point2D.distanceTo` is the Euclidean distance,
idealised over the reals. -/
noncomputable def Point2D.distanceTo (a b : Point2D) : ℝ :=
  Real.sqrt (((a.x : ℝ) - (b.x : ℝ)) ^ 2 + ((a.y : ℝ) - (b.y : ℝ)) ^ 2)

/-- Modelled from the spec: `Point2D.averageDistanceTo` is the mean of
`distanceTo` over a sequence of points.  The spec leaves the empty
sequence undefined (callers must guard); here Lean's division by zero
makes it 0 for the empty list. -/
noncomputable def Point2D.averageDistanceTo (p : Point2D) (points : List Point2D) : ℝ :=
  (points.map (fun q => p.distanceTo q)).sum / points.length

/-- Modelled from the spec: Input (source file not provided).  One physical
contact; only the fields the embedded hooks can reach are kept. -/
structure Input where
  id : Nat
  initial : Point2D
  current : Point2D
  previous : Point2D
  phase : String
  deriving DecidableEq

/-- Modelled from the spec: State (source file not provided).  The
aggregate of currently active Inputs for one region. -/
structure State where
  active : List Input
  deriving DecidableEq

/-- Modelled from the spec: `State.activePoints` — current positions of the
active inputs. -/
def State.activePoints (s : State) : List Point2D :=
  s.active.map (fun i => i.current)

/-- Modelled from the spec: `State.centroid` — arithmetic mean of the
active points (undefined for an empty `active` list; Lean's division by
zero makes it `(0, 0)` there, where JS would produce NaN coordinates). -/
def State.centroid (s : State) : Point2D :=
  ⟨(s.activePoints.map (fun p => p.x)).sum / s.activePoints.length,
   (s.activePoints.map (fun p => p.y)).sum / s.activePoints.length⟩

/-- Shorthand for the expression
`state.centroid.averageDistanceTo(state.activePoints)` that `Pinch`'s
`refresh` and `move` both compute. -/
noncomputable def State.avgDist (s : State) : ℝ :=
  Point2D.averageDistanceTo s.centroid s.activePoints

/-- A JavaScript number that is either finite (idealised as a real) or one
of the non-finite IEEE-754 values a division by zero can produce. -/
inductive JSNum where
  | fin (x : ℝ)
  | nan
  | posInf
  | negInf

/-- Division of two finite JS numbers, with IEEE-754 semantics on a zero
divisor: `0/0 = NaN`, `a/0 = +Infinity` for `a > 0`, `-Infinity` for
`a < 0`. -/
noncomputable def jsDiv (a b : ℝ) : JSNum :=
  if b = 0 then
    if 0 < a then JSNum.posInf
    else if a < 0 then JSNum.negInf
    else JSNum.nan
  else JSNum.fin (a / b)

/-- From Pinch.js: `const DEFAULT_MIN_INPUTS = 2;`. -/
def DEFAULT_MIN_INPUTS : Int := 2

/-- The fields of a Pinch gesture instance: the `type` tag set by the
`Gesture` base constructor, `minInputs`, and the private memory
`previous` (the previous average distance). -/
structure Pinch where
  type : String
  minInputs : Int
  previous : ℝ

/-- From Pinch.js, `constructor(options = {})`: `super('pinch')` sets the
type tag; `this.minInputs = options.minInputs || DEFAULT_MIN_INPUTS`
(so a falsy `0` or an absent option falls back to the default, and any
other value — negative included — is stored as-is); `this.previous = 0`.
The constructor can not fail: it is a total function. -/
def Pinch.new (minInputsOption : Option Int) : Pinch :=
  { type := "pinch",
    minInputs :=
      match minInputsOption with
      | none => DEFAULT_MIN_INPUTS
      | some n => if n = 0 then DEFAULT_MIN_INPUTS else n,
    previous := 0 }

/-- From Pinch.js, `refresh(state)`: when at least `minInputs` inputs are
active, recompute the average distance from the centroid to the active
points and store it in `this.previous`; otherwise do nothing.  The state
is returned unchanged (the method never writes to it). -/
noncomputable def Pinch.refresh (p : Pinch) (s : State) : Pinch × State :=
  if (s.active.length : Int) ≥ p.minInputs then
    ({ p with previous := Point2D.averageDistanceTo s.centroid s.activePoints }, s)
  else (p, s)

/-- From Pinch.js, `start(state)`: `this.refresh(state)`. -/
noncomputable def Pinch.start (p : Pinch) (s : State) : Pinch × State :=
  p.refresh s

/-- Data returned when a Pinch is recognized (`PinchData` in Pinch.js). -/
structure PinchData where
  distance : ℝ
  midpoint : Point2D
  change : JSNum

/-- Everything a call to `Pinch.move` produces: the emitted result (or
`none`), the post-call gesture fields, and the post-call state. -/
structure MoveOut where
  result : Option PinchData
  gesture : Pinch
  state : State

/-- From Pinch.js, `move(state)`: below `minInputs` active inputs, return
null; otherwise compute the centroid, the average distance to the active
points, and `change = distance / this.previous` (JS division: `jsDiv`),
store the distance in `this.previous`, and return
`{ distance, midpoint, change }`. -/
noncomputable def Pinch.move (p : Pinch) (s : State) : MoveOut :=
  if (s.active.length : Int) < p.minInputs then ⟨none, p, s⟩
  else
    let midpoint := s.centroid
    let distance := Point2D.averageDistanceTo midpoint s.activePoints
    let change := jsDiv distance p.previous
    ⟨some ⟨distance, midpoint, change⟩, { p with previous := distance }, s⟩

/-- From Pinch.js, `end(state)`: `this.refresh(state)`. -/
noncomputable def Pinch.«end» (p : Pinch) (s : State) : Pinch × State :=
  p.refresh s

/-- From Pinch.js, `cancel(state)`: `this.refresh(state)`. -/
noncomputable def Pinch.cancel (p : Pinch) (s : State) : Pinch × State :=
  p.refresh s

/-- Runs `Pinch.move` over a sequence of successive states (no intervening
refresh), threading the gesture's private memory and collecting the
`change` field of every emitted (non-null) result, in order. -/
noncomputable def Pinch.runMoves (p : Pinch) : List State → List JSNum × Pinch
  | [] => ([], p)
  | s :: rest =>
      let out := Pinch.move p s
      let r := Pinch.runMoves out.gesture rest
      (match out.result with
       | some data => data.change :: r.1
       | none => r.1,
       r.2)

/-- From the Interactor (src/unnamed/part_000), `rotater()`: the override
installed over the library Rotate's `move`.  `rotateMove` is the
captured original `move` of the underlying two-point angle calculator
(an external library function, kept abstract), `numActiveInputs` is the
state method the override consults.  The override delegates only when
exactly 2 inputs are active and otherwise returns null. -/
def refineRotateMove {ι σ ε ρ : Type} (rotateMove : ι → σ → ε → Option ρ)
    (numActiveInputs : σ → Nat) (inputs : ι) (state : σ) (element : ε) : Option ρ :=
  if numActiveInputs state = 2 then rotateMove inputs state element else none

/-- The `detail` object the library hands the Interactor's rotate handler:
only the field the handler reads. -/
structure RotateDetail where
  distanceFromLast : ℝ

/-- From the Interactor (src/unnamed/part_000), `rotate({detail})`: the
radians value computed as `degrees * Math.PI / 180` from
`detail.distanceFromLast`. -/
noncomputable def Interactor.rotateRadians (detail : RotateDetail) : ℝ :=
  detail.distanceFromLast * Real.pi / 180

/-- From the Interactor (src/unnamed/part_000), `rotate({detail})`: calls
the registered rotate handler with the converted radians value. -/
noncomputable def Interactor.rotate {α : Type} (handlerRotate : ℝ → α)
    (detail : RotateDetail) : α :=
  handlerRotate (Interactor.rotateRadians detail)

/-- An id-bearing array element, as consumed by `removeById`
(src/src/shared/util.js): an `id` plus a payload distinguishing
otherwise-equal items. -/
structure IdItem where
  id : Nat
  val : Nat
  deriving DecidableEq

/-- From util.js, `removeById(array, item)`: find the first index whose
element's `id` equals `item.id`; if found, splice that one element out
and return true, else return false.  Rendered recursively: scan from the
front, drop the first match. Returns the post-call array and the boolean
result. -/
def removeById : List IdItem → IdItem → List IdItem × Bool
  | [], _ => ([], false)
  | o :: rest, item =>
      if o.id = item.id then (rest, true)
      else
        let r := removeById rest item
        (o :: r.1, r.2)

/-! Concrete fixtures used by witnesses and counterexamples. -/

/-- A contact sitting at position `q` (initial, current and previous all
equal), in the move phase. -/
def inputAt (n : Nat) (q : Point2D) : Input :=
  ⟨n, q, q, q, "move"⟩

/-- Two active contacts at `(-d, 0)` and `(d, 0)`: centroid `(0, 0)`,
average distance `d` (for `0 ≤ d`). -/
def symState (d : ℚ) : State :=
  ⟨[inputAt 0 ⟨-d, 0⟩, inputAt 1 ⟨d, 0⟩]⟩

/-- A state with no active contacts. -/
def emptyState : State :=
  ⟨[]⟩

/-- A Pinch whose private memory holds previous distance 100. -/
def pinch100 : Pinch :=
  ⟨"pinch", 2, 100⟩

lemma activePoints_symState (d : ℚ) :
    (symState d).activePoints = [⟨-d, 0⟩, ⟨d, 0⟩] := by
  simp [symState, State.activePoints, inputAt]

lemma centroid_symState (d : ℚ) : (symState d).centroid = ⟨0, 0⟩ := by
  simp [State.centroid, activePoints_symState]

lemma distanceTo_horizontal (a b : ℚ) (h : a ≤ b) :
    Point2D.distanceTo ⟨a, 0⟩ ⟨b, 0⟩ = ((b : ℝ) - (a : ℝ)) := by
  have hab : (0 : ℝ) ≤ (b : ℝ) - (a : ℝ) := by
    have : (a : ℝ) ≤ (b : ℝ) := by exact_mod_cast h
    linarith
  simp only [Point2D.distanceTo]
  rw [show (((⟨a, 0⟩ : Point2D).x : ℝ) - ((⟨b, 0⟩ : Point2D).x : ℝ)) ^ 2 +
        (((⟨a, 0⟩ : Point2D).y : ℝ) - ((⟨b, 0⟩ : Point2D).y : ℝ)) ^ 2 =
        ((b : ℝ) - (a : ℝ)) ^ 2 by push_cast; ring]
  exact Real.sqrt_sq hab

lemma distanceTo_comm (a b : Point2D) : a.distanceTo b = b.distanceTo a := by
  simp only [Point2D.distanceTo]
  ring_nf

lemma avgDist_symState (d : ℚ) (hd : 0 ≤ d) :
    (symState d).avgDist = (d : ℝ) := by
  have h1 : Point2D.distanceTo ⟨0, 0⟩ ⟨-d, 0⟩ = (d : ℝ) := by
    rw [distanceTo_comm]
    have := distanceTo_horizontal (-d) 0 (by linarith)
    rw [this]
    push_cast
    ring
  have h2 : Point2D.distanceTo ⟨0, 0⟩ ⟨d, 0⟩ = (d : ℝ) := by
    have := distanceTo_horizontal 0 d hd
    rw [this]
    push_cast
    ring
  rw [State.avgDist, centroid_symState, activePoints_symState]
  simp only [Point2D.averageDistanceTo, List.map_cons, List.map_nil, List.sum_cons,
    List.sum_nil, List.length_cons, List.length_nil, h1, h2]
  push_cast
  ring

lemma removeById_no_match (l : List IdItem) (item : IdItem)
    (h : ∀ o ∈ l, o.id ≠ item.id) : removeById l item = (l, false) := by
  induction l with
  | nil => rfl
  | cons a rest ih =>
      have ha : a.id ≠ item.id := h a (List.mem_cons_self a rest)
      have hrest := ih (fun o ho => h o (List.mem_cons_of_mem a ho))
      simp [removeById, ha, hrest]

/-- C3: the refined Rotate move hook returns null whenever the number of
active contacts is not exactly 2, and delegates to the underlying
two-point angle computation when it is exactly 2. -/
theorem refineRotateMove_requires_exactly_two {ι σ ε ρ : Type}
    (rotateMove : ι → σ → ε → Option ρ) (numActiveInputs : σ → Nat)
    (inputs : ι) (state : σ) (element : ε) :
    (numActiveInputs state ≠ 2 →
      refineRotateMove rotateMove numActiveInputs inputs state element = none) ∧
    (numActiveInputs state = 2 →
      refineRotateMove rotateMove numActiveInputs inputs state element =
        rotateMove inputs state element) := by
  constructor <;> intro h <;> simp [refineRotateMove, h]

/-- Witness for C3: with 3 active contacts the refined hook yields null;
with exactly 2 it returns whatever the underlying computation returns. -/
theorem refineRotateMove_requires_exactly_two_witness :
    ((3 : Nat) ≠ 2 ∧
      refineRotateMove (fun _ _ _ => some 7) (fun n : Nat => n) 0 3 0 = none) ∧
    ((2 : Nat) = 2 ∧
      refineRotateMove (fun _ _ _ => some 7) (fun n : Nat => n) 0 2 0 = some 7) :=
  ⟨⟨by decide,
    (refineRotateMove_requires_exactly_two (fun _ _ _ => some 7)
      (fun n : Nat => n) 0 3 0).1 (by decide)⟩,
   ⟨rfl,
    (refineRotateMove_requires_exactly_two (fun _ _ _ => some 7)
      (fun n : Nat => n) 0 2 0).2 rfl⟩⟩

/-- C6: with fewer active contacts than minInputs (the empty list
included), Pinch's move hook returns null, leaves the gesture — its
private memory `previous` included — unchanged, and leaves the state
unchanged; being a total function, the call raises no error. -/
theorem pinch_move_insufficient (p : Pinch) (s : State)
    (h : (s.active.length : Int) < p.minInputs) :
    Pinch.move p s = ⟨none, p, s⟩ := by
  simp [Pinch.move, h]

/-- Witness for C6: a default Pinch given a move with no active contacts. -/
theorem pinch_move_insufficient_witness :
    ((emptyState.active.length : Int) < (Pinch.new none).minInputs) ∧
    Pinch.move (Pinch.new none) emptyState = ⟨none, Pinch.new none, emptyState⟩ :=
  ⟨by decide, pinch_move_insufficient (Pinch.new none) emptyState (by decide)⟩

/-- C8: the angle delta delivered to the registered rotate callback is the
degrees-based `distanceFromLast` multiplied by π/180 — signed radians,
positive measurements staying positive and negative ones negative. -/
theorem interactor_rotate_radians {α : Type} (handlerRotate : ℝ → α)
    (detail : RotateDetail) :
    Interactor.rotate handlerRotate detail =
      handlerRotate (detail.distanceFromLast * (Real.pi / 180)) ∧
    (0 < detail.distanceFromLast → 0 < Interactor.rotateRadians detail) ∧
    (detail.distanceFromLast < 0 → Interactor.rotateRadians detail < 0) := by
  refine ⟨?_, ?_, ?_⟩
  · rw [Interactor.rotate, Interactor.rotateRadians, mul_div_assoc]
  · intro h
    rw [Interactor.rotateRadians]
    have hπ := Real.pi_pos
    exact div_pos (mul_pos h hπ) (by norm_num)
  · intro h
    rw [Interactor.rotateRadians]
    have hπ := Real.pi_pos
    exact div_neg_of_neg_of_pos (mul_neg_of_neg_of_pos h hπ) (by norm_num)

/-- Witness for C8: a +90° measurement is delivered as a positive radian
value and a −90° measurement as a negative one. -/
theorem interactor_rotate_radians_witness :
    ((0 : ℝ) < 90 ∧ 0 < Interactor.rotateRadians ⟨90⟩) ∧
    ((-90 : ℝ) < 0 ∧ Interactor.rotateRadians ⟨-90⟩ < 0) :=
  ⟨⟨by norm_num, (interactor_rotate_radians (fun r => r) ⟨90⟩).2.1 (by norm_num)⟩,
   ⟨by norm_num, (interactor_rotate_radians (fun r => r) ⟨-90⟩).2.2 (by norm_num)⟩⟩

/-- C9: every Pinch hook returns the state it was given unchanged, and the
only gesture field any hook writes is the private memory `previous`: the
`type` tag and `minInputs` survive move, refresh, start, end and cancel
untouched. -/
theorem pinch_hooks_frame (p : Pinch) (s : State) :
    (Pinch.move p s).state = s ∧
    (Pinch.move p s).gesture.type = p.type ∧
    (Pinch.move p s).gesture.minInputs = p.minInputs ∧
    (Pinch.refresh p s).2 = s ∧
    (Pinch.refresh p s).1.type = p.type ∧
    (Pinch.refresh p s).1.minInputs = p.minInputs ∧
    (Pinch.start p s).2 = s ∧
    (Pinch.start p s).1.type = p.type ∧
    (Pinch.start p s).1.minInputs = p.minInputs ∧
    (Pinch.«end» p s).2 = s ∧
    (Pinch.«end» p s).1.type = p.type ∧
    (Pinch.«end» p s).1.minInputs = p.minInputs ∧
    (Pinch.cancel p s).2 = s ∧
    (Pinch.cancel p s).1.type = p.type ∧
    (Pinch.cancel p s).1.minInputs = p.minInputs := by
  have hr : (Pinch.refresh p s).2 = s ∧ (Pinch.refresh p s).1.type = p.type ∧
      (Pinch.refresh p s).1.minInputs = p.minInputs := by
    unfold Pinch.refresh
    split <;> simp
  have hm : (Pinch.move p s).state = s ∧ (Pinch.move p s).gesture.type = p.type ∧
      (Pinch.move p s).gesture.minInputs = p.minInputs := by
    unfold Pinch.move
    split <;> simp
  exact ⟨hm.1, hm.2.1, hm.2.2, hr.1, hr.2.1, hr.2.2, hr.1, hr.2.1, hr.2.2,
    hr.1, hr.2.1, hr.2.2, hr.1, hr.2.1, hr.2.2⟩

/-- C2 counterexample: the constructor never reports an error.  A negative
`minInputs` of −1 is accepted and stored as-is, a `minInputs` of 0 is
silently replaced by the default 2, and the Pinch built with −1 goes on
to emit a move result even with zero active contacts — the bad
configuration is discovered later, not at construction. -/
theorem pinch_nonpositive_minInputs_accepted :
    Pinch.new (some (-1)) = ⟨"pinch", -1, 0⟩ ∧
    (Pinch.new (some 0)).minInputs = 2 ∧
    (Pinch.move (Pinch.new (some (-1))) emptyState).result.isSome = true := by
  refine ⟨?_, rfl, ?_⟩
  · norm_num [Pinch.new, DEFAULT_MIN_INPUTS]
  · have hlt : ¬ ((emptyState.active.length : Int) < (Pinch.new (some (-1))).minInputs) := by
      decide
    simp [Pinch.move, hlt]

/-- C2 amended: the constructor silently coerces instead of rejecting — 0
(falsy) falls back to the default minimum, any other value, negative
included, is stored unchanged, and `previous` starts at 0. -/
theorem pinch_constructor_silently_coerces (n : Int) :
    (Pinch.new (some n)).minInputs = (if n = 0 then DEFAULT_MIN_INPUTS else n) ∧
    (Pinch.new none).minInputs = DEFAULT_MIN_INPUTS ∧
    (Pinch.new (some n)).type = "pinch" ∧
    (Pinch.new (some n)).previous = 0 :=
  ⟨rfl, rfl, rfl, rfl⟩

/-- C10 counterexample: on an array holding two items with id 7, removing
id 7 twice succeeds twice — the second removal also returns true and
shrinks the array further, so removal by id is not idempotent on
arbitrary arrays. -/
theorem removeById_duplicate_ids_not_idempotent :
    removeById [⟨7, 0⟩, ⟨7, 1⟩] ⟨7, 2⟩ = ([⟨7, 1⟩], true) ∧
    removeById [⟨7, 1⟩] ⟨7, 2⟩ = ([], true) := by
  decide

/-- C4: with at least minInputs active contacts, Pinch's move hook emits
`{distance, midpoint, change}` where the midpoint is the state's
centroid, the distance is the average distance from the centroid to the
active points, and the change is the JS quotient distance / previous
(equal to the real quotient whenever previous ≠ 0); it then stores the
distance as the new previous. -/
theorem pinch_move_formula (p : Pinch) (s : State)
    (h : p.minInputs ≤ (s.active.length : Int)) :
    (Pinch.move p s).result =
      some ⟨s.avgDist, s.centroid, jsDiv s.avgDist p.previous⟩ ∧
    (Pinch.move p s).gesture.previous = s.avgDist ∧
    (p.previous ≠ 0 →
      jsDiv s.avgDist p.previous = JSNum.fin (s.avgDist / p.previous)) := by
  have hlt : ¬ ((s.active.length : Int) < p.minInputs) := not_lt.mpr h
  refine ⟨?_, ?_, ?_⟩
  · simp [Pinch.move, hlt, State.avgDist]
  · simp [Pinch.move, hlt, State.avgDist]
  · intro h0
    simp [jsDiv, h0]

/-- Witness for C4: a two-contact state at average distance 150 against a
Pinch remembering distance 100. -/
theorem pinch_move_formula_witness :
    pinch100.minInputs ≤ ((symState 150).active.length : Int) ∧
    ((Pinch.move pinch100 (symState 150)).result =
       some ⟨(symState 150).avgDist, (symState 150).centroid,
             jsDiv (symState 150).avgDist pinch100.previous⟩ ∧
     (Pinch.move pinch100 (symState 150)).gesture.previous = (symState 150).avgDist ∧
     (pinch100.previous ≠ 0 →
       jsDiv (symState 150).avgDist pinch100.previous =
         JSNum.fin ((symState 150).avgDist / pinch100.previous))) :=
  ⟨by decide, pinch_move_formula pinch100 (symState 150) (by decide)⟩

/-- C7: start, end and cancel all carry out the refresh and return no
result record (their outputs hold only the updated private memory and
the untouched state): with at least minInputs active contacts the
private memory resyncs to the current average distance, and below the
minimum the gesture is left unchanged. -/
theorem pinch_refresh_resync (p : Pinch) (s : State) :
    Pinch.start p s = Pinch.refresh p s ∧
    Pinch.«end» p s = Pinch.refresh p s ∧
    Pinch.cancel p s = Pinch.refresh p s ∧
    (p.minInputs ≤ (s.active.length : Int) →
      Pinch.refresh p s = ({ p with previous := s.avgDist }, s)) ∧
    ((s.active.length : Int) < p.minInputs →
      Pinch.refresh p s = (p, s)) := by
  refine ⟨rfl, rfl, rfl, ?_, ?_⟩
  · intro h
    have hge : (s.active.length : Int) ≥ p.minInputs := h
    simp [Pinch.refresh, hge, State.avgDist]
  · intro h
    have hng : ¬ ((s.active.length : Int) ≥ p.minInputs) := not_le.mpr h
    simp [Pinch.refresh, hng]

/-- Witness for C7: the refresh resyncs on a two-contact state and does
nothing on an empty one. -/
theorem pinch_refresh_resync_witness :
    (pinch100.minInputs ≤ ((symState 150).active.length : Int) ∧
      Pinch.refresh pinch100 (symState 150) =
        ({ pinch100 with previous := (symState 150).avgDist }, symState 150)) ∧
    (((emptyState.active.length : Int) < pinch100.minInputs) ∧
      Pinch.refresh pinch100 emptyState = (pinch100, emptyState)) :=
  ⟨⟨by decide, (pinch_refresh_resync pinch100 (symState 150)).2.2.2.1 (by decide)⟩,
   ⟨by decide, (pinch_refresh_resync pinch100 emptyState).2.2.2.2 (by decide)⟩⟩

/-- C1 at the failing input: a freshly constructed Pinch (previous = 0)
handed a move with its two contacts both at the origin emits a non-null
result whose change is NaN (the JS value of 0/0) — the division by zero
is not guarded and the hook does not return null. -/
theorem pinch_move_zero_previous_emits_nan :
    (Pinch.move (Pinch.new none) (symState 0)).result =
      some ⟨0, ⟨0, 0⟩, JSNum.nan⟩ ∧
    (Pinch.move (Pinch.new none) (symState 0)).result ≠ none := by
  have hlt : ¬ (((symState 0).active.length : Int) < (Pinch.new none).minInputs) := by
    decide
  have havg : Point2D.averageDistanceTo (symState 0).centroid
      (symState 0).activePoints = 0 := by
    have h := avgDist_symState 0 le_rfl
    rw [State.avgDist] at h
    simpa using h
  have hmain : (Pinch.move (Pinch.new none) (symState 0)).result =
      some ⟨0, ⟨0, 0⟩, JSNum.nan⟩ := by
    simp only [Pinch.move, hlt, if_false, ite_false]
    rw [havg, centroid_symState]
    have hdiv : jsDiv 0 (Pinch.new none).previous = JSNum.nan := by
      simp [jsDiv, Pinch.new]
    simp [hdiv]
  exact ⟨hmain, by rw [hmain]; simp⟩

/-- C5: over any sequence of successive recognized move calls with no
intervening refresh, starting from a nonzero previous distance and
passing through nonzero average distances, every emitted change is a
finite ratio and their product telescopes to the final remembered
distance divided by the initial previous distance. -/
theorem pinch_changes_compose : ∀ (ss : List State) (p : Pinch),
    (∀ s ∈ ss, p.minInputs ≤ (s.active.length : Int)) →
    p.previous ≠ 0 →
    (∀ s ∈ ss, s.avgDist ≠ 0) →
    ∃ rs : List ℝ, (Pinch.runMoves p ss).1 = rs.map JSNum.fin ∧
      rs.prod = (Pinch.runMoves p ss).2.previous / p.previous := by
  intro ss
  induction ss with
  | nil =>
      intro p _ hprev _
      exact ⟨[], rfl, by simp [Pinch.runMoves, div_self hprev]⟩
  | cons s rest ih =>
      intro p hmin hprev hdist
      have hs : p.minInputs ≤ (s.active.length : Int) := hmin s (List.mem_cons_self s rest)
      have hd : s.avgDist ≠ 0 := hdist s (List.mem_cons_self s rest)
      have hlt : ¬ ((s.active.length : Int) < p.minInputs) := not_lt.mpr hs
      have hmove : Pinch.move p s =
          ⟨some ⟨s.avgDist, s.centroid, jsDiv s.avgDist p.previous⟩,
           { p with previous := s.avgDist }, s⟩ := by
        simp [Pinch.move, hlt, State.avgDist]
      have hjs : jsDiv s.avgDist p.previous = JSNum.fin (s.avgDist / p.previous) := by
        simp [jsDiv, hprev]
      obtain ⟨rs, h1, h2⟩ := ih { p with previous := s.avgDist }
        (fun t ht => hmin t (List.mem_cons_of_mem s ht))
        (by simpa using hd)
        (fun t ht => hdist t (List.mem_cons_of_mem s ht))
      refine ⟨(s.avgDist / p.previous) :: rs, ?_, ?_⟩
      · simp [Pinch.runMoves, hmove, hjs, h1]
      · simp only [Pinch.runMoves, hmove, List.prod_cons, h2]
        field_simp
        ring

/-- Witness for C5, the spec's own example: previous distance 100, then
moves at average distances 150 and 75; the emitted changes are finite
and multiply to the final distance over 100. -/
theorem pinch_changes_compose_witness :
    (∀ s ∈ [symState 150, symState 75],
      pinch100.minInputs ≤ (s.active.length : Int)) ∧
    pinch100.previous ≠ 0 ∧
    (∀ s ∈ [symState 150, symState 75], s.avgDist ≠ 0) ∧
    (∃ rs : List ℝ,
      (Pinch.runMoves pinch100 [symState 150, symState 75]).1 = rs.map JSNum.fin ∧
      rs.prod =
        (Pinch.runMoves pinch100 [symState 150, symState 75]).2.previous /
          pinch100.previous) := by
  have hmin : ∀ s ∈ [symState 150, symState 75],
      pinch100.minInputs ≤ (s.active.length : Int) := by decide
  have hprev : pinch100.previous ≠ 0 := by
    norm_num [pinch100]
  have hdist : ∀ s ∈ [symState 150, symState 75], s.avgDist ≠ 0 := by
    intro s hs
    rcases List.mem_cons.mp hs with h | h
    · rw [h, avgDist_symState 150 (by norm_num)]; norm_num
    · rcases List.mem_cons.mp h with h' | h'
      · rw [h', avgDist_symState 75 (by norm_num)]; norm_num
      · exact absurd h' (List.not_mem_nil s)
  exact ⟨hmin, hprev, hdist,
    pinch_changes_compose [symState 150, symState 75] pinch100 hmin hprev hdist⟩

/-- C10 amended: on an array holding at most one element with the removed
id, removeById removes exactly the first (hence only) matching element
and returns true when a match exists; the second removal of the same
item then returns false and leaves the array — all other entries, in
order — unchanged; and with no match at all the call returns false and
leaves the array unchanged. -/
theorem removeById_unique_id_idempotent (l : List IdItem) (item : IdItem)
    (huniq : (l.filter (fun o => o.id == item.id)).length ≤ 1) :
    ((∃ o ∈ l, o.id = item.id) →
      ∃ l₁ o l₂, l = l₁ ++ o :: l₂ ∧ o.id = item.id ∧
        (∀ x ∈ l₁, x.id ≠ item.id) ∧
        removeById l item = (l₁ ++ l₂, true) ∧
        removeById (l₁ ++ l₂) item = (l₁ ++ l₂, false)) ∧
    ((∀ o ∈ l, o.id ≠ item.id) → removeById l item = (l, false)) := by
  revert huniq
  induction l with
  | nil =>
      intro _
      constructor
      · rintro ⟨o, ho, _⟩
        exact absurd ho (List.not_mem_nil o)
      · intro _
        rfl
  | cons a rest ih =>
      intro huniq
      by_cases ha : a.id = item.id
      · constructor
        · intro _
          refine ⟨[], a, rest, by simp, ha, by simp, ?_, ?_⟩
          · simp [removeById, ha]
          · have hnone : ∀ o ∈ rest, o.id ≠ item.id := by
              intro o ho hoid
              have hmem : o ∈ rest.filter (fun o => o.id == item.id) := by
                simp [List.mem_filter, ho, hoid]
              have h1 : 0 < (rest.filter (fun o => o.id == item.id)).length :=
                List.length_pos.mpr (List.ne_nil_of_mem hmem)
              have h2 : ((a :: rest).filter (fun o => o.id == item.id)).length =
                  (rest.filter (fun o => o.id == item.id)).length + 1 := by
                simp [List.filter_cons, ha]
              omega
            have h := removeById_no_match rest item hnone
            simpa using h
        · intro h
          exact absurd ha (h a (List.mem_cons_self a rest))
      · have hfilter : (a :: rest).filter (fun o => o.id == item.id) =
            rest.filter (fun o => o.id == item.id) := by
          simp [List.filter_cons, ha]
        rw [hfilter] at huniq
        obtain ⟨ih1, ih2⟩ := ih huniq
        constructor
        · rintro ⟨o, ho, hoid⟩
          have ho' : o ∈ rest := by
            rcases List.mem_cons.mp ho with h1 | h1
            · rw [h1] at hoid
              exact absurd hoid ha
            · exact h1
          obtain ⟨l₁, b, l₂, hsplit, hbid, hl₁, hrm, hrm2⟩ := ih1 ⟨o, ho', hoid⟩
          refine ⟨a :: l₁, b, l₂, by rw [List.cons_append, hsplit], hbid, ?_, ?_, ?_⟩
          · intro x hx
            rcases List.mem_cons.mp hx with h1 | h1
            · rw [h1]; exact ha
            · exact hl₁ x h1
          · simp [removeById, ha, hrm]
          · simp [removeById, ha, hrm2]
        · intro h
          have hrest := ih2 (fun o ho => h o (List.mem_cons_of_mem a ho))
          simp [removeById, ha, hrest]

/-- Witness for C10 (amended): on an array with distinct ids 1 and 2,
removing id 2 succeeds once and is then idempotent. -/
theorem removeById_unique_id_idempotent_witness :
    (([⟨1, 0⟩, ⟨2, 0⟩] : List IdItem).filter
      (fun o => o.id == (⟨2, 5⟩ : IdItem).id)).length ≤ 1 ∧
    (((∃ o ∈ ([⟨1, 0⟩, ⟨2, 0⟩] : List IdItem), o.id = (⟨2, 5⟩ : IdItem).id) →
       ∃ l₁ o l₂, ([⟨1, 0⟩, ⟨2, 0⟩] : List IdItem) = l₁ ++ o :: l₂ ∧
         o.id = (⟨2, 5⟩ : IdItem).id ∧
         (∀ x ∈ l₁, x.id ≠ (⟨2, 5⟩ : IdItem).id) ∧
         removeById [⟨1, 0⟩, ⟨2, 0⟩] ⟨2, 5⟩ = (l₁ ++ l₂, true) ∧
         removeById (l₁ ++ l₂) ⟨2, 5⟩ = (l₁ ++ l₂, false)) ∧
     ((∀ o ∈ ([⟨1, 0⟩, ⟨2, 0⟩] : List IdItem), o.id ≠ (⟨2, 5⟩ : IdItem).id) →
       removeById [⟨1, 0⟩, ⟨2, 0⟩] ⟨2, 5⟩ = ([⟨1, 0⟩, ⟨2, 0⟩], false))) :=
  ⟨by decide, removeById_unique_id_idempotent [⟨1, 0⟩, ⟨2, 0⟩] ⟨2, 5⟩ (by decide)⟩

end Wams
